import Mathlib

/-!
Verification development for the placement-coordinator backend
(`server/controller/coordinators.js` and its Mongoose models).

The controller code is embedded shallowly:
* JavaScript strings are Lean `String`s; an absent (`undefined`) string field
  and the empty string are conflated, which is behaviour-identical at every
  point the controller reads such a field (falsiness checks, `includes`,
  `|| default`), except for the template `${rollNo}@007` where an absent
  rollNo would render as "undefined"; no property below touches that case.
* The `graduationYear` field can hold a JS string (CSV path), an integer or
  `null` (Excel path), or `NaN` (result of `parseInt` on a non-numeric
  string); the inductive `Cell` covers these.
* Database and Cloudinary effects are made explicit: the student collection
  is a state threaded through a `save` function, the company/application
  collections are lists in a `Store`, and the Cloudinary destroy call is a
  pure oracle `destroy : String → String → DestroyResult` so that theorems
  quantify over every possible pattern of external-store outcomes.
* The helper `getCloudinaryId` lives in `utils/helperPublicId`, outside the
  controller file; it is taken as a parameter `gid : String → String × String`
  returning `(publicId, resourceType)` with `""` standing for a falsy field.
-/

namespace Placement

/-- Value stored in the `graduationYear` slot of a row or student record.
`str` arises on the CSV path (csv-parser yields strings), `int`/`null` on the
Excel path, and `nan` models the JS `NaN` produced by `parseInt` on a
non-numeric string. -/
inductive Cell where
  | null : Cell
  | nan : Cell
  | int : Int → Cell
  | str : String → Cell
deriving DecidableEq, Repr

/-- JS `String.prototype.trim`, over the character list (the core
`String.trim` is implemented with substring primitives that the kernel
cannot reduce, so the embedding works on `List Char`). -/
def jsTrim (s : String) : String :=
  String.mk
    (((s.toList.dropWhile Char.isWhitespace).reverse.dropWhile
        Char.isWhitespace).reverse)

/-- JS `String.prototype.toLowerCase`; the strings this code touches are
ASCII, where `Char.toLower` agrees with the JS function. -/
def jsToLower (s : String) : String :=
  String.mk (s.toList.map Char.toLower)

/-- JS `String.prototype.startsWith`. -/
def jsStartsWith (s pre : String) : Bool :=
  pre.toList.isPrefixOf s.toList

/-- Is this character one of `a`-`z` or `0`-`9`?  Mirrors the character class
kept by the JS regex `replace(/[^a-z0-9]/g, "")`. -/
def isAlnumLower (c : Char) : Bool :=
  (('a' ≤ c) && (c ≤ 'z')) || (('0' ≤ c) && (c ≤ '9'))

/-- Numeric value of a list of decimal digits. -/
def digitsVal (l : List Char) : Nat :=
  l.foldl (fun a c => a * 10 + (c.toNat - 48)) 0

/-- JS `parseInt(s, 10)`: skip surrounding whitespace, optional sign, then
the longest leading run of decimal digits; `none` models `NaN` (no digits).
Line 61 of the controller calls `parseInt` without a radix, which differs
from radix 10 only on strings with a `0x`/`0X` prefix; no property below
involves such a string, so the radix-10 form is used for both call sites. -/
def parseIntJs (s : String) : Option Int :=
  let t := (jsTrim s).toList
  let sign : Int := if t.head? = some '-' then -1 else 1
  let rest := if t.head? = some '-' || t.head? = some '+' then t.tail else t
  let ds := rest.takeWhile Char.isDigit
  if ds.isEmpty then none else some (sign * (digitsVal ds : Int))

/-- One element of `studentsData`, the list entering the validation loop of
`registerStudentsFromFile` (either straight from csv-parser or produced by
`parseExcelFile`). -/
structure DataRow where
  name : String
  email : String
  rollNo : String
  role : String
  semester : String
  course : String
  graduationYear : Cell
  defaultResume : String
deriving DecidableEq, Repr

/-- A student document as built at lines 52-64 of the controller
(the `details` sub-object is flattened). -/
structure Student where
  name : String
  email : String
  password : String
  role : String
  rollNo : String
  semester : String
  course : String
  graduationYear : Cell
  defaultResume : String
deriving DecidableEq, Repr

/-- Line 61: `studentData.graduationYear ? parseInt(studentData.graduationYear) : null`.
`null`, `NaN`, `0` and `""` are falsy and yield `null`; a truthy string is
run through `parseInt`, whose `NaN` result is stored unchanged (there is no
`|| null` at this call site). -/
def convertGraduationYear : Cell → Cell
  | Cell.null => Cell.null
  | Cell.nan => Cell.null
  | Cell.int n => if n = 0 then Cell.null else Cell.int n
  | Cell.str s =>
      if s = "" then Cell.null
      else
        match parseIntJs s with
        | none => Cell.nan
        | some n => Cell.int n

/-- Lines 52-64: build the student object from a validated row.
`studentData.rollNo || ""` is the identity on our `String` model. -/
def mkStudent (d : DataRow) : Student :=
  { name := d.name
    email := d.email
    password := d.rollNo ++ "@007"
    role := d.role
    rollNo := d.rollNo
    semester := d.semester
    course := d.course
    graduationYear := convertGraduationYear d.graduationYear
    defaultResume := d.defaultResume }

/-- The role whitelist of line 46. -/
def validRoles : List String := ["student", "coordinator"]

/-- Error message pushed at line 41. -/
def missingFieldsMsg (i : Nat) : String :=
  "Row " ++ toString (i + 1) ++ ": Missing required fields (name, email)"

/-- Error message pushed at line 47. -/
def invalidRoleMsg (i : Nat) : String :=
  "Row " ++ toString (i + 1) ++ ": Invalid role. Must be \x27student\x27 or \x27coordinator\x27"

/-- Does row `d` fail the validation loop (line 40 or line 46)? -/
def rowFails (d : DataRow) : Bool :=
  (d.name == "") || (d.email == "") || !(validRoles.contains d.role)

/-- Lines 36-67: the validation loop, index `i` counting rows from zero.
Returns `(validatedStudents, errors)`, both in row order; a failing row
contributes exactly one error and no student. -/
def validateLoop (i : Nat) : List DataRow → List Student × List String
  | [] => ([], [])
  | d :: rest =>
      let r := validateLoop (i + 1) rest
      if d.name == "" || d.email == "" then
        (r.1, missingFieldsMsg i :: r.2)
      else if !(validRoles.contains d.role) then
        (r.1, invalidRoleMsg i :: r.2)
      else
        (mkStudent d :: r.1, r.2)

/-- The whole validation phase over `studentsData`. -/
def validateRows (rows : List DataRow) : List Student × List String :=
  validateLoop 0 rows

/-- One entry of `insertResults` / `insertErrors` (lines 84-96). -/
inductive Outcome where
  | success (email name : String) : Outcome
  | failure (email name error : String) : Outcome
deriving DecidableEq, Repr

def Outcome.isSuccess : Outcome → Bool
  | Outcome.success _ _ => true
  | Outcome.failure _ _ _ => false

def Outcome.isFailure : Outcome → Bool
  | Outcome.success _ _ => false
  | Outcome.failure _ _ _ => true

def Outcome.email : Outcome → String
  | Outcome.success e _ => e
  | Outcome.failure e _ _ => e

def Outcome.name : Outcome → String
  | Outcome.success _ n => n
  | Outcome.failure _ n _ => n

/-- Result of the persistence loop: the final student-collection state, the
outcome list in row order, and the list of students actually passed to
`save`, in call order. -/
structure PersistOut (S : Type) where
  store : S
  outcomes : List Outcome
  attempted : List Student
deriving Repr

/-- Lines 80-97: attempt to save each validated student in order; a throwing
`save` yields a failure outcome carrying the row email, name and the error
message, and the loop continues with the next row. Mongoose `save` resolves
with the saved document itself, so the success outcome fields equal the
input student fields. -/
def persistLoop {S : Type} (save : S → Student → Except String S) :
    S → List Student → PersistOut S
  | st, [] => ⟨st, [], []⟩
  | st, s :: rest =>
      match save st s with
      | Except.ok st2 =>
          let r := persistLoop save st2 rest
          ⟨r.store, Outcome.success s.email s.name :: r.outcomes, s :: r.attempted⟩
      | Except.error msg =>
          let r := persistLoop save st rest
          ⟨r.store, Outcome.failure s.email s.name msg :: r.outcomes, s :: r.attempted⟩

/-- The JSON body sent back by `registerStudentsFromFile`: either the 400
validation rejection of lines 69-74 or the 200 report of lines 102-108. -/
inductive RegisterResponse where
  | validationError (details : List String) : RegisterResponse
  | completed (successful failed : Nat)
      (results errs : List Outcome) : RegisterResponse
deriving DecidableEq, Repr

/-- Final state of one `registerStudentsFromFile` request (after parsing):
the student collection, the save calls that were issued, and the response. -/
structure RegisterResult (S : Type) where
  store : S
  attempted : List Student
  response : RegisterResponse

/-- Lines 32-108 of `registerStudentsFromFile`, from `studentsData` onward:
validation phase, all-or-nothing gate at line 69, then the persistence loop
and the aggregate report. -/
def registerStudentsData {S : Type} (save : S → Student → Except String S)
    (st : S) (rows : List DataRow) : RegisterResult S :=
  let v := validateRows rows
  if v.2.length > 0 then
    ⟨st, [], RegisterResponse.validationError v.2⟩
  else
    let p := persistLoop save st v.1
    let results := p.outcomes.filter Outcome.isSuccess
    let errs := p.outcomes.filter Outcome.isFailure
    ⟨p.store, p.attempted,
      RegisterResponse.completed results.length errs.length results errs⟩

/-- The student collection as constrained by the Mongoose schema in
`models/students.js`: `email` is `unique`, so a save with an email already
present rejects with a duplicate-key error, and a successful save appends
the document. -/
def mongoSave (store : List Student) (s : Student) : Except String (List Student) :=
  if store.any (fun t => t.email == s.email) then
    Except.error "E11000 duplicate key error"
  else
    Except.ok (store ++ [s])

/-! ### The Excel normalization path (`parseExcelFile`, lines 473-523)

A raw spreadsheet row is an association list from header string to cell
value (values already in their JS string form; `defval: ""` makes empty
cells empty strings). -/

/-- JS `k.toString().trim().toLowerCase().replace(/[^a-z0-9]/g, "")`. -/
def normKey (s : String) : String :=
  String.mk ((jsToLower (jsTrim s)).toList.filter isAlnumLower)

/-- Lines 482-498, the `pick` helper, exactly as written: a first loop over
the candidates looking for an exact trim-and-lowercase header match with a
non-empty value, then a second loop over the candidates against the
`normMap` built by stripping non-alphanumeric characters from every header
(later duplicate normalized headers overwrite earlier ones), and `""` if
both loops fall through. -/
def pick (raw : List (String × String)) (candidates : List String) : String :=
  match candidates.findSome? (fun c =>
      match raw.find? (fun kv =>
          (kv.1 != "") && (jsToLower (jsTrim kv.1) == jsToLower (jsTrim c))) with
      | some kv => if kv.2 != "" then some (jsTrim kv.2) else none
      | none => none) with
  | some v => v
  | none =>
      match candidates.findSome? (fun c =>
          let nc := normKey c
          if nc == "" then none
          else
            match raw.foldl
                (fun acc kv => if normKey kv.1 == nc then some kv.2 else acc)
                (none : Option String) with
            | some v => if v != "" then some (jsTrim v) else none
            | none => none) with
      | some v => v
      | none => ""

/-- Phase (1) of the resolution contract as the spec states it: the first
candidate with an exact case-insensitive whitespace-trimmed header match
whose value is non-empty. -/
def exactResolve (raw : List (String × String)) (candidates : List String) :
    Option String :=
  candidates.findSome? (fun c =>
    match raw.find? (fun kv =>
        (kv.1 != "") && (jsToLower (jsTrim kv.1) == jsToLower (jsTrim c))) with
    | some kv => if kv.2 != "" then some (jsTrim kv.2) else none
    | none => none)

/-- Phase (2) of the resolution contract as the spec states it: the first
candidate whose stripped-alphanumeric form matches the stripped form of a
header holding a non-empty value. -/
def fuzzyResolve (raw : List (String × String)) (candidates : List String) :
    Option String :=
  candidates.findSome? (fun c =>
    let nc := normKey c
    if nc == "" then none
    else
      match raw.foldl
          (fun acc kv => if normKey kv.1 == nc then some kv.2 else acc)
          (none : Option String) with
      | some v => if v != "" then some (jsTrim v) else none
      | none => none)

/-- The alias lists of lines 501-510. -/
def nameAliases : List String := ["name", "full name", "student name"]

def emailAliases : List String := ["email", "e-mail", "mail"]

def rollNoAliases : List String := ["rollNo", "roll no", "roll", "roll_number", "rollno"]

def roleAliases : List String := ["role"]

def semesterAliases : List String := ["semester", "sem"]

def courseAliases : List String := ["course"]

def graduationYearAliases : List String :=
  ["graduationYear", "graduation year", "graduation_year", "graduation"]

def defaultResumeAliases : List String := ["defaultResume", "resume"]

/-- Line 509: `graduationYearRaw ? parseInt(graduationYearRaw, 10) || null : null`.
The `|| null` coerces both `NaN` and `0` to `null`. -/
def excelGraduationYear (s : String) : Cell :=
  if s = "" then Cell.null
  else
    match parseIntJs s with
    | none => Cell.null
    | some n => if n = 0 then Cell.null else Cell.int n

/-- Lines 500-521: the canonical record built for one raw Excel row.
Line 505: `(roleRaw || "student").toString().trim().toLowerCase()`. -/
def normalizeRow (raw : List (String × String)) : DataRow :=
  let roleRaw := pick raw roleAliases
  { name := pick raw nameAliases
    email := pick raw emailAliases
    rollNo := pick raw rollNoAliases
    role := jsToLower (jsTrim (if roleRaw = "" then "student" else roleRaw))
    semester := pick raw semesterAliases
    course := pick raw courseAliases
    graduationYear := excelGraduationYear (pick raw graduationYearAliases)
    defaultResume := pick raw defaultResumeAliases }

/-- `parseExcelFile` over the decoded rows of the first sheet. -/
def parseExcelRows (rawRows : List (List (String × String))) : List DataRow :=
  rawRows.map normalizeRow

/-! ### The cascading deletion workflow (`deleteCompany`, lines 273-340)
and the zip-link endpoints (lines 369-458). -/

/-- A company document (`models/companies.js`); only the fields the delete
workflow reads. Ids are opaque strings (Mongoose cast failures for
malformed ObjectIds are outside the embedded domain). -/
structure Company where
  id : String
  name : String
deriving DecidableEq, Repr

/-- A dependent application document: the company reference and the stored
resume URL; `none` models a missing field and `""` an empty one, both falsy
at line 288. -/
structure Application where
  companyId : String
  resume : Option String
deriving DecidableEq, Repr

/-- Outcome of one Cloudinary `uploader.destroy` call: `r.result` equal to
"ok", to "not found", or anything else including a rejected promise. -/
inductive DestroyResult where
  | ok : DestroyResult
  | notFound : DestroyResult
  | error : DestroyResult
deriving DecidableEq, Repr

/-- The namespace filter of lines 291, 383 and 433:
`publicId && publicId.startsWith("placement/resumes")`. -/
def resumeFilterAccepts (publicId : String) : Bool :=
  (publicId != "") && jsStartsWith publicId "placement/resumes"

/-- JS `Map.prototype.set`: overwrite the value at an existing key keeping
its insertion position, otherwise append. -/
def mapSet (m : List (String × String)) (k v : String) : List (String × String) :=
  if m.any (fun p => p.1 == k) then
    m.map (fun p => if p.1 == k then (k, v) else p)
  else m ++ [(k, v)]

/-- Lines 285-294: build `idMap` (publicId -> resourceType) from the
dependent applications. `gid` is the imported `getCloudinaryId` helper
(`utils/helperPublicId`, outside this file), returning
`(publicId, resourceType)` with `""` standing for a falsy component;
line 292 applies `resourceType || "raw"`. -/
def collectIdMap (gid : String → String × String) :
    List (String × String) → List Application → List (String × String)
  | m, [] => m
  | m, a :: rest =>
      match a.resume with
      | none => collectIdMap gid m rest
      | some r =>
          if r = "" then collectIdMap gid m rest
          else
            let e := gid r
            if resumeFilterAccepts e.1 then
              collectIdMap gid (mapSet m e.1 (if e.2 = "" then "raw" else e.2)) rest
            else collectIdMap gid m rest

/-- Lines 297-314: one destroy call per `idMap` entry; a result of "ok" or
"not found" increments `resumesDeleted`, anything else (including a
rejection, swallowed by the per-task catch) does not. -/
def countDeleted (destroy : String → String → DestroyResult)
    (m : List (String × String)) : Nat :=
  (m.filter (fun p =>
    match destroy p.1 p.2 with
    | DestroyResult.ok => true
    | DestroyResult.notFound => true
    | DestroyResult.error => false)).length

/-- The database of record: the company and application collections. -/
structure Store where
  companies : List Company
  applications : List Application
deriving DecidableEq, Repr

/-- The `cleanup` object of the 200 response (lines 327-331). -/
structure CleanupReport where
  applicationsDeleted : Nat
  resumesRequested : Nat
  resumesDeleted : Nat
deriving DecidableEq, Repr

/-- The 200 response body of `deleteCompany` (lines 321-332). -/
structure DeleteResponse where
  deletedCompanyId : String
  deletedCompanyName : String
  cleanup : CleanupReport
deriving DecidableEq, Repr

/-- Lines 273-340: the whole `deleteCompany` handler. `none` is the 404
Company-not-found response; otherwise the resume cleanup is attempted
(best-effort, outcome given by the `destroy` oracle), the dependent
applications are removed with `deleteMany`, and the company document is
removed with `findByIdAndDelete` (which deletes the single matching
document, modelled by `eraseP`). -/
def deleteCompany (gid : String → String × String)
    (destroy : String → String → DestroyResult)
    (st : Store) (id : String) : Store × Option DeleteResponse :=
  match st.companies.find? (fun c => c.id == id) with
  | none => (st, none)
  | some company =>
      let apps := st.applications.filter (fun a => a.companyId == id)
      let idMap := collectIdMap gid [] apps
      let resumesDeleted := countDeleted destroy idMap
      let st2 : Store :=
        { companies := st.companies.eraseP (fun c => c.id == id)
          applications := st.applications.filter (fun a => !(a.companyId == id)) }
      (st2, some
        { deletedCompanyId := company.id
          deletedCompanyName := company.name
          cleanup :=
            { applicationsDeleted := apps.length
              resumesRequested := idMap.length
              resumesDeleted := resumesDeleted } })

/-- Lines 379-386 and 429-436: the publicIds pushed into a zip request, in
application order, duplicates kept. -/
def collectZipIds (gid : String → String × String) : List Application → List String
  | [] => []
  | a :: rest =>
      match a.resume with
      | none => collectZipIds gid rest
      | some r =>
          if r = "" then collectZipIds gid rest
          else
            let e := gid r
            if resumeFilterAccepts e.1 then e.1 :: collectZipIds gid rest
            else collectZipIds gid rest

/-- Lines 369-408, `downloadAllResumesZip`: `none` for either 404 branch,
otherwise the id list handed to `cloudinary.utils.download_zip_url`. -/
def downloadAllResumesZip (gid : String → String × String)
    (apps : List Application) : Option (List String) :=
  if apps.isEmpty then none
  else
    let ids := collectZipIds gid apps
    if ids.isEmpty then none else some ids

/-- Claim-side (C9): a publicId lies inside the `placement/resumes` folder
when the folder name is followed by a path separator. -/
def inResumesFolder (publicId : String) : Bool :=
  jsStartsWith publicId "placement/resumes/"

/-- Claim-side (C3): every storageId extracted from the dependent
applications (truthy resume and truthy extracted id), deduplicated —
with no namespace filtering, exactly as the claim words it. -/
def extractedStorageIds (gid : String → String × String)
    (apps : List Application) : List String :=
  (apps.filterMap (fun a =>
    match a.resume with
    | none => none
    | some r =>
        if r = "" then none
        else if (gid r).1 = "" then none else some (gid r).1)).dedup

/-- The storageIds that are extracted and pass the namespace filter, in
application order, duplicates kept (the amended C3 compares the `idMap`
keys against this list). -/
def filteredStorageIds (gid : String → String × String)
    (apps : List Application) : List String :=
  apps.filterMap (fun a =>
    match a.resume with
    | none => none
    | some r =>
        if r = "" then none
        else if resumeFilterAccepts (gid r).1 then some (gid r).1 else none)
/-! ### Lemmas about the validation loop -/

lemma validateLoop_errors_nil (i : Nat) (rows : List DataRow) :
    (validateLoop i rows).2 = [] ↔ ∀ d ∈ rows, rowFails d = false := by
  induction rows generalizing i with
  | nil => simp [validateLoop]
  | cons d t ih =>
      by_cases h1 : (d.name == "" || d.email == "") = true
      · have hf : rowFails d = true := by
          simp only [rowFails, h1, Bool.true_or]
        simp [validateLoop, h1, hf]
      · by_cases h2 : (!(validRoles.contains d.role)) = true
        · have hf : rowFails d = true := by
            simp only [rowFails, h2, Bool.or_true]
          have h2m : d.role ∉ validRoles := by simpa using h2
          simp [validateLoop, h1, h2m, hf]
        · have hf : rowFails d = false := by
            simp only [rowFails, h1, h2, Bool.or_false]
          have h2m : d.role ∈ validRoles := by simpa using h2
          simp [validateLoop, h1, h2m, hf, ih]

lemma validateLoop_errors_length (i : Nat) (rows : List DataRow) :
    (validateLoop i rows).2.length = (rows.filter rowFails).length := by
  induction rows generalizing i with
  | nil => rfl
  | cons d t ih =>
      by_cases h1 : (d.name == "" || d.email == "") = true
      · have hf : rowFails d = true := by
          simp only [rowFails, h1, Bool.true_or]
        simp [validateLoop, h1, hf, List.filter_cons, ih]
      · by_cases h2 : (!(validRoles.contains d.role)) = true
        · have hf : rowFails d = true := by
            simp only [rowFails, h2, Bool.or_true]
          have h2m : d.role ∉ validRoles := by simpa using h2
          simp [validateLoop, h1, h2m, hf, List.filter_cons, ih]
        · have hf : rowFails d = false := by
            simp only [rowFails, h1, h2, Bool.or_false]
          have h2m : d.role ∈ validRoles := by simpa using h2
          simp [validateLoop, h1, h2m, hf, List.filter_cons, ih]

lemma validateLoop_all_pass (i : Nat) (rows : List DataRow)
    (h : ∀ d ∈ rows, rowFails d = false) :
    validateLoop i rows = (rows.map mkStudent, []) := by
  induction rows generalizing i with
  | nil => rfl
  | cons d t ih =>
      have hd := h d (by simp)
      have ht : ∀ x ∈ t, rowFails x = false := fun x hx => h x (by simp [hx])
      simp only [rowFails, Bool.or_eq_false_iff, Bool.not_eq_false] at hd
      have h2m : d.role ∈ validRoles := by
        have := hd.2
        simpa using this
      simp [validateLoop, hd.1.1, hd.1.2, h2m, ih (i + 1) ht]

/-! ### Lemmas about the persistence loop -/

lemma persistLoop_attempted {S : Type} (save : S → Student → Except String S)
    (st : S) (l : List Student) : (persistLoop save st l).attempted = l := by
  induction l generalizing st with
  | nil => rfl
  | cons s t ih =>
      cases h : save st s <;> simp [persistLoop, h, ih]

lemma persistLoop_email_map {S : Type} (save : S → Student → Except String S)
    (st : S) (l : List Student) :
    (persistLoop save st l).outcomes.map Outcome.email = l.map Student.email := by
  induction l generalizing st with
  | nil => rfl
  | cons s t ih =>
      cases h : save st s <;> simp [persistLoop, h, ih, Outcome.email]

lemma persistLoop_name_map {S : Type} (save : S → Student → Except String S)
    (st : S) (l : List Student) :
    (persistLoop save st l).outcomes.map Outcome.name = l.map Student.name := by
  induction l generalizing st with
  | nil => rfl
  | cons s t ih =>
      cases h : save st s <;> simp [persistLoop, h, ih, Outcome.name]

lemma persistLoop_length {S : Type} (save : S → Student → Except String S)
    (st : S) (l : List Student) :
    (persistLoop save st l).outcomes.length = l.length := by
  have := persistLoop_email_map save st l
  have h2 := congrArg List.length this
  simpa using h2

lemma outcome_filter_partition (l : List Outcome) :
    (l.filter Outcome.isSuccess).length + (l.filter Outcome.isFailure).length
      = l.length := by
  induction l with
  | nil => rfl
  | cons o t ih =>
      cases o <;>
        simp [List.filter_cons, Outcome.isSuccess, Outcome.isFailure] <;> omega

/-! ### Lemmas about the cleanup map -/

lemma mapSet_keys_of_mem (m : List (String × String)) (k v : String)
    (h : m.any (fun p => p.1 == k) = true) :
    (mapSet m k v).map Prod.fst = m.map Prod.fst := by
  simp only [mapSet, if_pos h, List.map_map]
  apply List.map_congr_left
  intro p _
  by_cases hk : (p.1 == k) = true
  · simp only [Function.comp, hk, if_pos]
    exact (eq_of_beq hk).symm
  · simp [Function.comp, hk]

lemma mapSet_keys_of_not_mem (m : List (String × String)) (k v : String)
    (h : m.any (fun p => p.1 == k) = false) :
    (mapSet m k v).map Prod.fst = m.map Prod.fst ++ [k] := by
  simp [mapSet, h]

lemma mapSet_keys_nodup (m : List (String × String)) (k v : String)
    (h : (m.map Prod.fst).Nodup) : ((mapSet m k v).map Prod.fst).Nodup := by
  by_cases hm : m.any (fun p => p.1 == k) = true
  · rw [mapSet_keys_of_mem m k v hm]
    exact h
  · rw [mapSet_keys_of_not_mem m k v (by rwa [Bool.not_eq_true] at hm)]
    have hk : k ∉ m.map Prod.fst := by
      intro hmem
      obtain ⟨p, hp, hpk⟩ := List.mem_map.1 hmem
      have : m.any (fun p => p.1 == k) = true :=
        List.any_eq_true.2 ⟨p, hp, by simp [hpk]⟩
      simp [this] at hm
    simp [List.nodup_append, h, hk]

lemma mapSet_keys_mem (m : List (String × String)) (k v k2 : String) :
    k2 ∈ (mapSet m k v).map Prod.fst ↔ k2 ∈ m.map Prod.fst ∨ k2 = k := by
  by_cases hm : m.any (fun p => p.1 == k) = true
  · rw [mapSet_keys_of_mem m k v hm]
    constructor
    · exact Or.inl
    · rintro (h | rfl)
      · exact h
      · obtain ⟨p, hp, hpk⟩ := List.any_eq_true.1 hm
        exact List.mem_map.2 ⟨p, hp, eq_of_beq hpk⟩
  · rw [mapSet_keys_of_not_mem m k v (by rwa [Bool.not_eq_true] at hm)]
    simp

lemma collectIdMap_keys_nodup (gid : String → String × String)
    (apps : List Application) :
    ∀ m, (m.map Prod.fst).Nodup →
      ((collectIdMap gid m apps).map Prod.fst).Nodup := by
  induction apps with
  | nil => exact fun m h => h
  | cons a rest ih =>
      intro m h
      cases ha : a.resume with
      | none => simpa [collectIdMap, ha] using ih m h
      | some r =>
          by_cases hr : r = ""
          · simpa [collectIdMap, ha, hr] using ih m h
          · by_cases hf : resumeFilterAccepts (gid r).1 = true
            · simpa [collectIdMap, ha, hr, hf] using
                ih _ (mapSet_keys_nodup m (gid r).1 _ h)
            · simpa [collectIdMap, ha, hr, hf] using ih m h

lemma collectIdMap_cons_none (gid : String → String × String)
    (m : List (String × String)) (a : Application) (rest : List Application)
    (ha : a.resume = none) :
    collectIdMap gid m (a :: rest) = collectIdMap gid m rest := by
  simp [collectIdMap, ha]

lemma collectIdMap_cons_empty (gid : String → String × String)
    (m : List (String × String)) (a : Application) (rest : List Application)
    (r : String) (ha : a.resume = some r) (hr : r = "") :
    collectIdMap gid m (a :: rest) = collectIdMap gid m rest := by
  simp [collectIdMap, ha, hr]

lemma collectIdMap_cons_rej (gid : String → String × String)
    (m : List (String × String)) (a : Application) (rest : List Application)
    (r : String) (ha : a.resume = some r) (hr : r ≠ "")
    (hf : resumeFilterAccepts (gid r).1 = false) :
    collectIdMap gid m (a :: rest) = collectIdMap gid m rest := by
  simp [collectIdMap, ha, hr, hf]

lemma collectIdMap_cons_acc (gid : String → String × String)
    (m : List (String × String)) (a : Application) (rest : List Application)
    (r : String) (ha : a.resume = some r) (hr : r ≠ "")
    (hf : resumeFilterAccepts (gid r).1 = true) :
    collectIdMap gid m (a :: rest) =
      collectIdMap gid
        (mapSet m (gid r).1 (if (gid r).2 = "" then "raw" else (gid r).2))
        rest := by
  simp [collectIdMap, ha, hr, hf]

lemma filteredStorageIds_cons_none (gid : String → String × String)
    (a : Application) (rest : List Application) (ha : a.resume = none) :
    filteredStorageIds gid (a :: rest) = filteredStorageIds gid rest := by
  simp [filteredStorageIds, List.filterMap_cons, ha]

lemma filteredStorageIds_cons_empty (gid : String → String × String)
    (a : Application) (rest : List Application) (r : String)
    (ha : a.resume = some r) (hr : r = "") :
    filteredStorageIds gid (a :: rest) = filteredStorageIds gid rest := by
  simp [filteredStorageIds, List.filterMap_cons, ha, hr]

lemma filteredStorageIds_cons_rej (gid : String → String × String)
    (a : Application) (rest : List Application) (r : String)
    (ha : a.resume = some r) (hr : r ≠ "")
    (hf : resumeFilterAccepts (gid r).1 = false) :
    filteredStorageIds gid (a :: rest) = filteredStorageIds gid rest := by
  simp [filteredStorageIds, List.filterMap_cons, ha, hr, hf]

lemma filteredStorageIds_cons_acc (gid : String → String × String)
    (a : Application) (rest : List Application) (r : String)
    (ha : a.resume = some r) (hr : r ≠ "")
    (hf : resumeFilterAccepts (gid r).1 = true) :
    filteredStorageIds gid (a :: rest) =
      (gid r).1 :: filteredStorageIds gid rest := by
  simp [filteredStorageIds, List.filterMap_cons, ha, hr, hf]

lemma collectIdMap_keys_mem (gid : String → String × String)
    (apps : List Application) :
    ∀ m pid, (pid ∈ (collectIdMap gid m apps).map Prod.fst ↔
      pid ∈ m.map Prod.fst ∨ pid ∈ filteredStorageIds gid apps) := by
  induction apps with
  | nil => simp [collectIdMap, filteredStorageIds]
  | cons a rest ih =>
      intro m pid
      cases ha : a.resume with
      | none =>
          rw [collectIdMap_cons_none gid m a rest ha,
            filteredStorageIds_cons_none gid a rest ha]
          exact ih m pid
      | some r =>
          by_cases hr : r = ""
          · rw [collectIdMap_cons_empty gid m a rest r ha hr,
              filteredStorageIds_cons_empty gid a rest r ha hr]
            exact ih m pid
          · by_cases hf : resumeFilterAccepts (gid r).1 = true
            · rw [collectIdMap_cons_acc gid m a rest r ha hr hf,
                filteredStorageIds_cons_acc gid a rest r ha hr hf]
              rw [ih (mapSet m (gid r).1
                (if (gid r).2 = "" then "raw" else (gid r).2)) pid,
                mapSet_keys_mem]
              simp only [List.mem_cons]
              tauto
            · have hf2 : resumeFilterAccepts (gid r).1 = false := by
                rwa [Bool.not_eq_true] at hf
              rw [collectIdMap_cons_rej gid m a rest r ha hr hf2,
                filteredStorageIds_cons_rej gid a rest r ha hr hf2]
              exact ih m pid

lemma countDeleted_le (destroy : String → String → DestroyResult)
    (m : List (String × String)) : countDeleted destroy m ≤ m.length :=
  List.length_filter_le _ m

lemma eraseP_id_not_mem (id : String) :
    ∀ l : List Company, (l.map Company.id).Nodup →
      ∀ c ∈ l.eraseP (fun c => c.id == id), c.id ≠ id := by
  intro l
  induction l with
  | nil => intro _ c hc; simp at hc
  | cons d t ih =>
      intro hnd c hc
      have hnd2 : (d.id :: t.map Company.id).Nodup := by simpa using hnd
      by_cases hd : (d.id == id) = true
      · have hc2 : c ∈ t := by simpa [List.eraseP_cons, hd] using hc
        have hdid : d.id = id := eq_of_beq hd
        have hnotin : id ∉ t.map Company.id := by
          have := (List.nodup_cons.1 hnd2).1
          rwa [hdid] at this
        intro hcid
        exact hnotin (List.mem_map.2 ⟨c, hc2, hcid⟩)
      · have hc2 : c = d ∨ c ∈ t.eraseP (fun c => c.id == id) := by
          simpa [List.eraseP_cons, hd] using hc
        rcases hc2 with rfl | hc2
        · simpa using hd
        · exact ih (List.nodup_cons.1 hnd2).2 c hc2

/-- C1. All-or-nothing validation gate: if any row of the batch fails
validation (missing name or email, or invalid role), `registerStudentsFromFile`
answers with the validation-error response carrying one rejection reason per
failing row, the student collection is left untouched, and no save call is
issued (`attempted = []`). -/
theorem allOrNothingGate {S : Type} (save : S → Student → Except String S)
    (st : S) (rows : List DataRow)
    (h : ∃ d ∈ rows, rowFails d = true) :
    registerStudentsData save st rows =
        ⟨st, [], RegisterResponse.validationError (validateRows rows).2⟩ ∧
    (validateRows rows).2 ≠ [] ∧
    (validateRows rows).2.length = (rows.filter rowFails).length := by
  have hne : (validateRows rows).2 ≠ [] := by
    intro hnil
    obtain ⟨d, hd, hf⟩ := h
    have hall := (validateLoop_errors_nil 0 rows).1 hnil d hd
    rw [hall] at hf
    exact Bool.false_ne_true hf
  have hpos : 0 < (validateRows rows).2.length := List.length_pos.2 hne
  refine ⟨?_, hne, validateLoop_errors_length 0 rows⟩
  simp only [registerStudentsData]
  rw [if_pos hpos]

/-- Witness for C1 (scenario A: second row has an empty name). -/
theorem allOrNothingGate_check :
    (∃ d ∈ [(⟨"Alice", "a@x.com", "r1", "student", "", "", Cell.null, ""⟩ : DataRow),
            ⟨"", "b@x.com", "r2", "student", "", "", Cell.null, ""⟩],
        rowFails d = true) ∧
    (registerStudentsData mongoSave ([] : List Student)
        [⟨"Alice", "a@x.com", "r1", "student", "", "", Cell.null, ""⟩,
         ⟨"", "b@x.com", "r2", "student", "", "", Cell.null, ""⟩] =
      ⟨[], [], RegisterResponse.validationError
        (validateRows
          [⟨"Alice", "a@x.com", "r1", "student", "", "", Cell.null, ""⟩,
           ⟨"", "b@x.com", "r2", "student", "", "", Cell.null, ""⟩]).2⟩ ∧
     (validateRows
        [⟨"Alice", "a@x.com", "r1", "student", "", "", Cell.null, ""⟩,
         ⟨"", "b@x.com", "r2", "student", "", "", Cell.null, ""⟩]).2 ≠ [] ∧
     (validateRows
        [⟨"Alice", "a@x.com", "r1", "student", "", "", Cell.null, ""⟩,
         ⟨"", "b@x.com", "r2", "student", "", "", Cell.null, ""⟩]).2.length =
      ([⟨"Alice", "a@x.com", "r1", "student", "", "", Cell.null, ""⟩,
        ⟨"", "b@x.com", "r2", "student", "", "", Cell.null, ""⟩].filter
          rowFails).length) :=
  ⟨by decide,
   allOrNothingGate mongoSave ([] : List Student)
     [⟨"Alice", "a@x.com", "r1", "student", "", "", Cell.null, ""⟩,
      ⟨"", "b@x.com", "r2", "student", "", "", Cell.null, ""⟩] (by decide)⟩

/-- C4. Partition law: when validation passes for every row, the persistence
phase yields exactly one outcome per input row: the underlying outcome list
has one entry per row (carrying that row's email), every entry is success
exactly when it is not failure, and the reported success and failure counts
sum to the number of input rows. -/
theorem persistencePartition {S : Type} (save : S → Student → Except String S)
    (st : S) (rows : List DataRow)
    (h : (validateRows rows).2 = []) :
    ∃ outs : List Outcome,
      (registerStudentsData save st rows).response =
        RegisterResponse.completed (outs.filter Outcome.isSuccess).length
          (outs.filter Outcome.isFailure).length
          (outs.filter Outcome.isSuccess) (outs.filter Outcome.isFailure) ∧
      outs.length = rows.length ∧
      (outs.filter Outcome.isSuccess).length
          + (outs.filter Outcome.isFailure).length = rows.length ∧
      outs.map Outcome.email = rows.map DataRow.email ∧
      ∀ o ∈ outs, o.isSuccess = !o.isFailure := by
  have hv : validateRows rows = (rows.map mkStudent, []) :=
    validateLoop_all_pass 0 rows ((validateLoop_errors_nil 0 rows).1 h)
  refine ⟨(persistLoop save st (rows.map mkStudent)).outcomes, ?_, ?_, ?_, ?_, ?_⟩
  · simp only [registerStudentsData, hv]
    rfl
  · rw [persistLoop_length]
    exact List.length_map rows mkStudent
  · rw [outcome_filter_partition, persistLoop_length]
    exact List.length_map rows mkStudent
  · rw [persistLoop_email_map, List.map_map]
    rfl
  · intro o _
    cases o <;> rfl

/-- Witness for C4 (two valid rows with the same email: one success, one
duplicate-key failure, outcomes partition the two rows). -/
theorem persistencePartition_check :
    (validateRows
        [(⟨"Alice", "a@x.com", "r1", "student", "", "", Cell.null, ""⟩ : DataRow),
         ⟨"Bob", "a@x.com", "r2", "student", "", "", Cell.null, ""⟩]).2 = [] ∧
    (∃ outs : List Outcome,
      (registerStudentsData mongoSave ([] : List Student)
          [⟨"Alice", "a@x.com", "r1", "student", "", "", Cell.null, ""⟩,
           ⟨"Bob", "a@x.com", "r2", "student", "", "", Cell.null, ""⟩]).response =
        RegisterResponse.completed (outs.filter Outcome.isSuccess).length
          (outs.filter Outcome.isFailure).length
          (outs.filter Outcome.isSuccess) (outs.filter Outcome.isFailure) ∧
      outs.length =
        [(⟨"Alice", "a@x.com", "r1", "student", "", "", Cell.null, ""⟩ : DataRow),
         ⟨"Bob", "a@x.com", "r2", "student", "", "", Cell.null, ""⟩].length ∧
      (outs.filter Outcome.isSuccess).length
          + (outs.filter Outcome.isFailure).length =
        [(⟨"Alice", "a@x.com", "r1", "student", "", "", Cell.null, ""⟩ : DataRow),
         ⟨"Bob", "a@x.com", "r2", "student", "", "", Cell.null, ""⟩].length ∧
      outs.map Outcome.email =
        [(⟨"Alice", "a@x.com", "r1", "student", "", "", Cell.null, ""⟩ : DataRow),
         ⟨"Bob", "a@x.com", "r2", "student", "", "", Cell.null, ""⟩].map DataRow.email ∧
      ∀ o ∈ outs, o.isSuccess = !o.isFailure) :=
  ⟨by decide,
   persistencePartition mongoSave ([] : List Student)
     [⟨"Alice", "a@x.com", "r1", "student", "", "", Cell.null, ""⟩,
      ⟨"Bob", "a@x.com", "r2", "student", "", "", Cell.null, ""⟩] (by decide)⟩

/-- C5. Partial-success persistence: when the batch passes validation, every
row is passed to `save` (and in original row order, `rows.map mkStudent`),
no matter how many earlier saves failed; the outcome list keeps one entry per
row in order, each carrying that row's email and name, and every failure
entry carries an error reason in its third field. -/
theorem partialSuccessPersistence {S : Type} (save : S → Student → Except String S)
    (st : S) (rows : List DataRow)
    (h : (validateRows rows).2 = []) :
    (registerStudentsData save st rows).attempted = rows.map mkStudent ∧
    (persistLoop save st (validateRows rows).1).outcomes.length = rows.length ∧
    (persistLoop save st (validateRows rows).1).outcomes.map Outcome.email
        = rows.map DataRow.email ∧
    (persistLoop save st (validateRows rows).1).outcomes.map Outcome.name
        = rows.map DataRow.name ∧
    ∀ o ∈ (persistLoop save st (validateRows rows).1).outcomes,
      o.isFailure = true → ∃ e n msg, o = Outcome.failure e n msg := by
  have hv : validateRows rows = (rows.map mkStudent, []) :=
    validateLoop_all_pass 0 rows ((validateLoop_errors_nil 0 rows).1 h)
  refine ⟨?_, ?_, ?_, ?_, ?_⟩
  · simp only [registerStudentsData, hv]
    rw [if_neg (by simp)]
    exact persistLoop_attempted save st (rows.map mkStudent)
  · rw [hv, persistLoop_length]
    exact List.length_map rows mkStudent
  · rw [hv, persistLoop_email_map, List.map_map]
    rfl
  · rw [hv, persistLoop_name_map, List.map_map]
    rfl
  · intro o _ hfail
    cases o with
    | success e n => exact absurd hfail (by simp [Outcome.isFailure])
    | failure e n msg => exact ⟨e, n, msg, rfl⟩

/-- Witness for C5 (scenario B: duplicate email; the second save fails but
both rows are attempted, in order). -/
theorem partialSuccessPersistence_check :
    (validateRows
        [(⟨"Alice", "a@x.com", "r1", "student", "", "", Cell.null, ""⟩ : DataRow),
         ⟨"Bob", "a@x.com", "r2", "coordinator", "", "", Cell.null, ""⟩]).2 = [] ∧
    ((registerStudentsData mongoSave ([] : List Student)
        [⟨"Alice", "a@x.com", "r1", "student", "", "", Cell.null, ""⟩,
         ⟨"Bob", "a@x.com", "r2", "coordinator", "", "", Cell.null, ""⟩]).attempted =
      [(⟨"Alice", "a@x.com", "r1", "student", "", "", Cell.null, ""⟩ : DataRow),
       ⟨"Bob", "a@x.com", "r2", "coordinator", "", "", Cell.null, ""⟩].map mkStudent ∧
     (persistLoop mongoSave ([] : List Student)
        (validateRows
          [(⟨"Alice", "a@x.com", "r1", "student", "", "", Cell.null, ""⟩ : DataRow),
           ⟨"Bob", "a@x.com", "r2", "coordinator", "", "", Cell.null, ""⟩]).1).outcomes.length =
       [(⟨"Alice", "a@x.com", "r1", "student", "", "", Cell.null, ""⟩ : DataRow),
        ⟨"Bob", "a@x.com", "r2", "coordinator", "", "", Cell.null, ""⟩].length ∧
     (persistLoop mongoSave ([] : List Student)
        (validateRows
          [(⟨"Alice", "a@x.com", "r1", "student", "", "", Cell.null, ""⟩ : DataRow),
           ⟨"Bob", "a@x.com", "r2", "coordinator", "", "", Cell.null, ""⟩]).1).outcomes.map
        Outcome.email =
       [(⟨"Alice", "a@x.com", "r1", "student", "", "", Cell.null, ""⟩ : DataRow),
        ⟨"Bob", "a@x.com", "r2", "coordinator", "", "", Cell.null, ""⟩].map DataRow.email ∧
     (persistLoop mongoSave ([] : List Student)
        (validateRows
          [(⟨"Alice", "a@x.com", "r1", "student", "", "", Cell.null, ""⟩ : DataRow),
           ⟨"Bob", "a@x.com", "r2", "coordinator", "", "", Cell.null, ""⟩]).1).outcomes.map
        Outcome.name =
       [(⟨"Alice", "a@x.com", "r1", "student", "", "", Cell.null, ""⟩ : DataRow),
        ⟨"Bob", "a@x.com", "r2", "coordinator", "", "", Cell.null, ""⟩].map DataRow.name ∧
     ∀ o ∈ (persistLoop mongoSave ([] : List Student)
        (validateRows
          [(⟨"Alice", "a@x.com", "r1", "student", "", "", Cell.null, ""⟩ : DataRow),
           ⟨"Bob", "a@x.com", "r2", "coordinator", "", "", Cell.null, ""⟩]).1).outcomes,
       o.isFailure = true → ∃ e n msg, o = Outcome.failure e n msg) :=
  ⟨by decide,
   partialSuccessPersistence mongoSave ([] : List Student)
     [⟨"Alice", "a@x.com", "r1", "student", "", "", Cell.null, ""⟩,
      ⟨"Bob", "a@x.com", "r2", "coordinator", "", "", Cell.null, ""⟩] (by decide)⟩

/-- C6, counterexample. The claim asserts role defaulting for every row of
both the CSV and the Excel path, but `parseCSVFile` applies no normalization
at all: a CSV row with no role column (role absent, hence falsy) reaches the
validation loop unchanged and is rejected with the invalid-role error
instead of passing as a student. -/
theorem roleDefaulting_cex :
    rowFails ⟨"Alice", "a@x.com", "r1", "", "", "", Cell.null, ""⟩ = true ∧
    registerStudentsData mongoSave ([] : List Student)
        [⟨"Alice", "a@x.com", "r1", "", "", "", Cell.null, ""⟩] =
      ⟨[], [], RegisterResponse.validationError
        ["Row 1: Invalid role. Must be \x27student\x27 or \x27coordinator\x27"]⟩ := by
  constructor
  · decide
  · rfl

/-- C6, amended. On the Excel path only: the role is the picked raw value
defaulted to "student" when empty, then trimmed and lower-cased; a row whose
role header is absent or empty normalizes to role "student" and passes the
role validation of line 46. -/
theorem roleDefaulting (raw : List (String × String)) :
    (normalizeRow raw).role
        = jsToLower (jsTrim (if pick raw roleAliases = "" then "student"
           else pick raw roleAliases)) ∧
    (pick raw roleAliases = "" →
      (normalizeRow raw).role = "student" ∧
      validRoles.contains (normalizeRow raw).role = true) := by
  refine ⟨rfl, fun h => ?_⟩
  have hr : (normalizeRow raw).role = "student" := by
    show jsToLower (jsTrim (if pick raw roleAliases = "" then "student"
      else pick raw roleAliases)) = "student"
    rw [if_pos h]
    decide
  exact ⟨hr, by rw [hr]; decide⟩

/-- Witness for C6 amended (a row with only name and email headers). -/
theorem roleDefaulting_check :
    (normalizeRow [("name", "Alice"), ("email", "a@x.com")]).role
        = jsToLower (jsTrim
            (if pick [("name", "Alice"), ("email", "a@x.com")] roleAliases = ""
             then "student"
             else pick [("name", "Alice"), ("email", "a@x.com")] roleAliases)) ∧
    (pick [("name", "Alice"), ("email", "a@x.com")] roleAliases = "" →
      (normalizeRow [("name", "Alice"), ("email", "a@x.com")]).role = "student" ∧
      validRoles.contains
        (normalizeRow [("name", "Alice"), ("email", "a@x.com")]).role = true) :=
  roleDefaulting [("name", "Alice"), ("email", "a@x.com")]

/-- C7, counterexample. On the Excel path a non-numeric graduationYear does
become absent, but the CSV path converts at line 61 without the `|| null`
guard: a truthy non-numeric string such as "soon" is stored as `NaN`, not as
`null`, in the student object that is persisted. -/
theorem gradYearParse_cex :
    convertGraduationYear (Cell.str "soon") = Cell.nan ∧
    Cell.nan ≠ Cell.null ∧
    (mkStudent ⟨"Alice", "a@x.com", "r1", "student", "", "",
        Cell.str "soon", ""⟩).graduationYear = Cell.nan ∧
    excelGraduationYear "soon" = Cell.null := by
  refine ⟨rfl, by decide, rfl, rfl⟩

/-- C7, amended. graduationYear parsing never throws and never turns a
non-numeric value into zero, and on the Excel normalization path a
non-numeric value yields absent (`null`); on the CSV path of line 61,
however, a non-empty non-numeric value yields `NaN` rather than absent,
and a numeric value is stored exactly as parsed. -/
theorem gradYearParse (s : String) :
    (parseIntJs s = none → excelGraduationYear s = Cell.null) ∧
    (excelGraduationYear s = Cell.null ∨
      ∃ n : Int, n ≠ 0 ∧ excelGraduationYear s = Cell.int n) ∧
    (s ≠ "" → parseIntJs s = none → convertGraduationYear (Cell.str s) = Cell.nan) ∧
    (∀ n : Int, convertGraduationYear (Cell.str s) = Cell.int n →
      parseIntJs s = some n) := by
  refine ⟨?_, ?_, ?_, ?_⟩
  · intro hp
    by_cases hs : s = ""
    · simp [excelGraduationYear, hs]
    · simp [excelGraduationYear, hs, hp]
  · by_cases hs : s = ""
    · exact Or.inl (by simp [excelGraduationYear, hs])
    · cases hp : parseIntJs s with
      | none => exact Or.inl (by simp [excelGraduationYear, hs, hp])
      | some n =>
          by_cases hn : n = 0
          · exact Or.inl (by simp [excelGraduationYear, hs, hp, hn])
          · exact Or.inr ⟨n, hn, by simp [excelGraduationYear, hs, hp, hn]⟩
  · intro hs hp
    simp [convertGraduationYear, hs, hp]
  · intro n hc
    by_cases hs : s = ""
    · simp [convertGraduationYear, hs] at hc
    · cases hp : parseIntJs s with
      | none => simp [convertGraduationYear, hs, hp] at hc
      | some m =>
          simp [convertGraduationYear, hs, hp] at hc
          rw [hc]

/-- Witness for C7 amended, at the non-numeric string "soon". -/
theorem gradYearParse_check :
    ("soon" ≠ "" ∧ parseIntJs "soon" = none) ∧
    (excelGraduationYear "soon" = Cell.null ∧
     convertGraduationYear (Cell.str "soon") = Cell.nan) :=
  ⟨⟨by decide, by decide⟩,
   ⟨(gradYearParse "soon").1 (by decide),
    (gradYearParse "soon").2.2.1 (by decide) (by decide)⟩⟩

/-- C8. Header-alias resolution order: `pick` returns the exact
case-insensitive trimmed match when one exists and falls back to the
stripped-alphanumeric match only when the exact phase fails; a header row
`["Student Name", "E-Mail"]` resolves to the canonical name and email
fields, and a header reachable only by stripping (`"E--Mail##"`) is still
resolved by the fuzzy phase. -/
theorem pickResolutionOrder (raw : List (String × String))
    (candidates : List String) :
    (∀ v, exactResolve raw candidates = some v → pick raw candidates = v) ∧
    (exactResolve raw candidates = none →
      pick raw candidates = (fuzzyResolve raw candidates).getD "") ∧
    (normalizeRow [("Student Name", "Alice"), ("E-Mail", "a@x.com")]).name
        = "Alice" ∧
    (normalizeRow [("Student Name", "Alice"), ("E-Mail", "a@x.com")]).email
        = "a@x.com" ∧
    exactResolve [("E--Mail##", "x@y")] emailAliases = none ∧
    pick [("E--Mail##", "x@y")] emailAliases = "x@y" := by
  refine ⟨?_, ?_, rfl, rfl, by decide, rfl⟩
  · intro v hv
    unfold pick
    unfold exactResolve at hv
    rw [hv]
  · intro hv
    unfold pick
    unfold exactResolve at hv
    rw [hv]
    show (match fuzzyResolve raw candidates with
          | some v => v
          | none => "") = (fuzzyResolve raw candidates).getD ""
    cases fuzzyResolve raw candidates <;> rfl

/-- Witness for C8: the exact phase resolves "Student Name", and for the
fuzzy-only header the fallback equation holds. -/
theorem pickResolutionOrder_check :
    pick [("Student Name", "Alice")] nameAliases = "Alice" ∧
    pick [("E--Mail##", "x@y")] emailAliases
        = (fuzzyResolve [("E--Mail##", "x@y")] emailAliases).getD "" :=
  ⟨(pickResolutionOrder [("Student Name", "Alice")] nameAliases).1 "Alice"
      (by decide),
   (pickResolutionOrder [("E--Mail##", "x@y")] emailAliases).2.1 (by decide)⟩

/-- C10. Zero graduation year becomes absent on the Excel path: whenever the
picked graduationYear cell parses to the integer 0, the `|| null` coercion
of line 509 stores `null` rather than 0 in the canonical record. -/
theorem zeroGradYearAbsent (raw : List (String × String))
    (h : parseIntJs (pick raw graduationYearAliases) = some 0) :
    (normalizeRow raw).graduationYear = Cell.null := by
  show excelGraduationYear (pick raw graduationYearAliases) = Cell.null
  by_cases hs : pick raw graduationYearAliases = ""
  · simp [excelGraduationYear, hs]
  · simp [excelGraduationYear, hs, h]

/-- Witness for C10 at the literal cell "0". -/
theorem zeroGradYearAbsent_check :
    parseIntJs (pick [("graduationYear", "0")] graduationYearAliases) = some 0 ∧
    (normalizeRow [("graduationYear", "0")]).graduationYear = Cell.null :=
  ⟨by decide, zeroGradYearAbsent [("graduationYear", "0")] (by decide)⟩

/-- C2. Cascade deletion: `deleteCompany` answers 404 exactly when no
company with the given id exists; otherwise — for every extraction helper
and every pattern of object-store destroy outcomes — the final store holds
no application referencing that company, and (given the Mongo invariant
that `_id` values are distinct) no company with that id either: the
authoritative deletion is never skipped because of cleanup outcomes. -/
theorem cascadeDeletion (gid : String → String × String)
    (destroy : String → String → DestroyResult) (st : Store) (id : String) :
    ((deleteCompany gid destroy st id).2 = none ↔
        ∀ c ∈ st.companies, c.id ≠ id) ∧
    ((deleteCompany gid destroy st id).2 ≠ none →
      (∀ a ∈ (deleteCompany gid destroy st id).1.applications,
          a.companyId ≠ id) ∧
      ((st.companies.map Company.id).Nodup →
        ∀ c ∈ (deleteCompany gid destroy st id).1.companies, c.id ≠ id)) := by
  cases hfind : st.companies.find? (fun c => c.id == id) with
  | none =>
      have hd : deleteCompany gid destroy st id = (st, none) := by
        simp [deleteCompany, hfind]
      constructor
      · rw [hd]
        constructor
        · intro _ c hc
          have := List.find?_eq_none.1 hfind c hc
          simpa using this
        · intro _
          rfl
      · rw [hd]
        intro hne
        exact absurd rfl hne
  | some company =>
      have hmem : company ∈ st.companies := List.mem_of_find?_eq_some hfind
      have hb := List.find?_some hfind
      have hcid : company.id = id := eq_of_beq hb
      have h1 : (deleteCompany gid destroy st id).1 =
          ⟨st.companies.eraseP (fun c => c.id == id),
           st.applications.filter (fun a => !(a.companyId == id))⟩ := by
        simp [deleteCompany, hfind]
      have h2 : (deleteCompany gid destroy st id).2 ≠ none := by
        simp [deleteCompany, hfind]
      constructor
      · constructor
        · intro h
          exact absurd h h2
        · intro hall
          exact absurd hcid (hall company hmem)
      · intro _
        constructor
        · intro a ha
          rw [h1] at ha
          have := (List.mem_filter.1 ha).2
          simpa using this
        · intro hnd c hc
          rw [h1] at hc
          exact eraseP_id_not_mem id st.companies hnd c hc

/-- Witness for C2: a two-company store; every destroy call errors, yet the
company and both of its applications are gone, and deleting a missing id is
exactly the 404 case. -/
theorem cascadeDeletion_check :
    ((deleteCompany (fun r => ("placement/resumes/" ++ r, "raw"))
        (fun _ _ => DestroyResult.error)
        ⟨[⟨"c1", "Acme"⟩, ⟨"c2", "Beta"⟩],
         [⟨"c1", some "u"⟩, ⟨"c2", some "v"⟩, ⟨"c1", some "w"⟩]⟩ "c1").2 = none ↔
      ∀ c ∈ [(⟨"c1", "Acme"⟩ : Company), ⟨"c2", "Beta"⟩], c.id ≠ "c1") ∧
    (∀ a ∈ (deleteCompany (fun r => ("placement/resumes/" ++ r, "raw"))
        (fun _ _ => DestroyResult.error)
        ⟨[⟨"c1", "Acme"⟩, ⟨"c2", "Beta"⟩],
         [⟨"c1", some "u"⟩, ⟨"c2", some "v"⟩, ⟨"c1", some "w"⟩]⟩
        "c1").1.applications, a.companyId ≠ "c1") ∧
    (∀ c ∈ (deleteCompany (fun r => ("placement/resumes/" ++ r, "raw"))
        (fun _ _ => DestroyResult.error)
        ⟨[⟨"c1", "Acme"⟩, ⟨"c2", "Beta"⟩],
         [⟨"c1", some "u"⟩, ⟨"c2", some "v"⟩, ⟨"c1", some "w"⟩]⟩
        "c1").1.companies, c.id ≠ "c1") :=
  ⟨(cascadeDeletion (fun r => ("placement/resumes/" ++ r, "raw"))
      (fun _ _ => DestroyResult.error)
      ⟨[⟨"c1", "Acme"⟩, ⟨"c2", "Beta"⟩],
       [⟨"c1", some "u"⟩, ⟨"c2", some "v"⟩, ⟨"c1", some "w"⟩]⟩ "c1").1,
   ((cascadeDeletion (fun r => ("placement/resumes/" ++ r, "raw"))
      (fun _ _ => DestroyResult.error)
      ⟨[⟨"c1", "Acme"⟩, ⟨"c2", "Beta"⟩],
       [⟨"c1", some "u"⟩, ⟨"c2", some "v"⟩, ⟨"c1", some "w"⟩]⟩ "c1").2
      (by decide)).1,
   ((cascadeDeletion (fun r => ("placement/resumes/" ++ r, "raw"))
      (fun _ _ => DestroyResult.error)
      ⟨[⟨"c1", "Acme"⟩, ⟨"c2", "Beta"⟩],
       [⟨"c1", some "u"⟩, ⟨"c2", some "v"⟩, ⟨"c1", some "w"⟩]⟩ "c1").2
      (by decide)).2 (by decide)⟩

/-- C3, counterexample. `resourcesRequested` counts only extracted ids that
pass the `placement/resumes` namespace filter: for a company whose single
application resume extracts to an out-of-namespace id, one distinct
storageId is extracted from the dependent applications, yet the report says
`resourcesRequested = 0`. -/
theorem cleanupCounting_cex :
    (deleteCompany (fun _ => ("users/other/cv", "raw"))
        (fun _ _ => DestroyResult.ok)
        ⟨[⟨"c1", "Acme"⟩], [⟨"c1", some "u"⟩]⟩ "c1").2 =
      some ⟨"c1", "Acme", ⟨1, 0, 0⟩⟩ ∧
    extractedStorageIds (fun _ => ("users/other/cv", "raw"))
        [⟨"c1", some "u"⟩] = ["users/other/cv"] ∧
    (extractedStorageIds (fun _ => ("users/other/cv", "raw"))
        [⟨"c1", some "u"⟩]).length ≠ (0 : Nat) := by
  refine ⟨by decide, by decide, by decide⟩

/-- C3, amended. For every successful `deleteCompany`: `resourcesRequested`
is the number of distinct storageIds that are extracted from the dependent
applications AND pass the resume-namespace filter (the `idMap` keys are
duplicate-free and are exactly the filtered extracted ids, so a shared
resume reference counts once); `resourcesDeleted` counts those whose
destroy returned ok or not-found; and `resourcesDeleted ≤ resourcesRequested`
for every pattern of destroy outcomes. -/
theorem cleanupCounting (gid : String → String × String)
    (destroy : String → String → DestroyResult) (st : Store) (id : String)
    (resp : DeleteResponse)
    (h : (deleteCompany gid destroy st id).2 = some resp) :
    resp.cleanup.resumesRequested =
        (collectIdMap gid []
          (st.applications.filter (fun a => a.companyId == id))).length ∧
    ((collectIdMap gid []
        (st.applications.filter (fun a => a.companyId == id))).map
          Prod.fst).Nodup ∧
    (∀ pid, pid ∈ (collectIdMap gid []
        (st.applications.filter (fun a => a.companyId == id))).map Prod.fst ↔
      pid ∈ filteredStorageIds gid
        (st.applications.filter (fun a => a.companyId == id))) ∧
    resp.cleanup.resumesDeleted =
        countDeleted destroy (collectIdMap gid []
          (st.applications.filter (fun a => a.companyId == id))) ∧
    resp.cleanup.resumesDeleted ≤ resp.cleanup.resumesRequested := by
  cases hfind : st.companies.find? (fun c => c.id == id) with
  | none =>
      exfalso
      simp [deleteCompany, hfind] at h
  | some company =>
      have hresp : resp =
          { deletedCompanyId := company.id
            deletedCompanyName := company.name
            cleanup :=
              { applicationsDeleted :=
                  (st.applications.filter (fun a => a.companyId == id)).length
                resumesRequested :=
                  (collectIdMap gid []
                    (st.applications.filter (fun a => a.companyId == id))).length
                resumesDeleted :=
                  countDeleted destroy (collectIdMap gid []
                    (st.applications.filter (fun a => a.companyId == id))) } } := by
        have := h
        simp only [deleteCompany, hfind, Option.some.injEq] at this
        exact this.symm
      refine ⟨by rw [hresp], ?_, ?_, by rw [hresp], ?_⟩
      · exact collectIdMap_keys_nodup gid
          (st.applications.filter (fun a => a.companyId == id)) [] (by simp)
      · intro pid
        have := collectIdMap_keys_mem gid
          (st.applications.filter (fun a => a.companyId == id)) [] pid
        simpa using this
      · rw [hresp]
        exact countDeleted_le destroy _

/-- Witness for C3 amended: scenario D, two applications sharing the same
resume reference, every destroy answering not-found; `resourcesRequested`
is 1 (not 2) and `resourcesDeleted` is 1. -/
theorem cleanupCounting_check :
    ((deleteCompany (fun _ => ("placement/resumes/cv1", "raw"))
        (fun _ _ => DestroyResult.notFound)
        ⟨[⟨"c1", "Acme"⟩], [⟨"c1", some "u"⟩, ⟨"c1", some "u"⟩]⟩ "c1").2 =
      some ⟨"c1", "Acme", ⟨2, 1, 1⟩⟩) ∧
    ((⟨"c1", "Acme", ⟨2, 1, 1⟩⟩ : DeleteResponse).cleanup.resumesRequested =
        (collectIdMap (fun _ => ("placement/resumes/cv1", "raw")) []
          ([(⟨"c1", some "u"⟩ : Application), ⟨"c1", some "u"⟩].filter
            (fun a => a.companyId == "c1"))).length ∧
     ((collectIdMap (fun _ => ("placement/resumes/cv1", "raw")) []
        ([(⟨"c1", some "u"⟩ : Application), ⟨"c1", some "u"⟩].filter
          (fun a => a.companyId == "c1"))).map Prod.fst).Nodup ∧
     (∀ pid, pid ∈ (collectIdMap (fun _ => ("placement/resumes/cv1", "raw")) []
          ([(⟨"c1", some "u"⟩ : Application), ⟨"c1", some "u"⟩].filter
            (fun a => a.companyId == "c1"))).map Prod.fst ↔
        pid ∈ filteredStorageIds (fun _ => ("placement/resumes/cv1", "raw"))
          ([(⟨"c1", some "u"⟩ : Application), ⟨"c1", some "u"⟩].filter
            (fun a => a.companyId == "c1"))) ∧
     (⟨"c1", "Acme", ⟨2, 1, 1⟩⟩ : DeleteResponse).cleanup.resumesDeleted =
        countDeleted (fun _ _ => DestroyResult.notFound)
          (collectIdMap (fun _ => ("placement/resumes/cv1", "raw")) []
            ([(⟨"c1", some "u"⟩ : Application), ⟨"c1", some "u"⟩].filter
              (fun a => a.companyId == "c1"))) ∧
     (⟨"c1", "Acme", ⟨2, 1, 1⟩⟩ : DeleteResponse).cleanup.resumesDeleted ≤
        (⟨"c1", "Acme", ⟨2, 1, 1⟩⟩ : DeleteResponse).cleanup.resumesRequested) :=
  ⟨by decide,
   cleanupCounting (fun _ => ("placement/resumes/cv1", "raw"))
     (fun _ _ => DestroyResult.notFound)
     ⟨[⟨"c1", "Acme"⟩], [⟨"c1", some "u"⟩, ⟨"c1", some "u"⟩]⟩ "c1"
     ⟨"c1", "Acme", ⟨2, 1, 1⟩⟩ (by decide)⟩

/-- C9. The resume-namespace guard is a bare string-prefix test without a
trailing path separator: the extracted publicId "placement/resumesX/cv" is
not inside the `placement/resumes` folder, yet the filter accepts it, a
destroy call is issued for it by `deleteCompany` (it is an `idMap` key and
the report counts it), and the all-resumes zip request includes it. -/
theorem resumeNamespaceFilterLoose :
    resumeFilterAccepts "placement/resumesX/cv" = true ∧
    inResumesFolder "placement/resumesX/cv" = false ∧
    (collectIdMap (fun _ => ("placement/resumesX/cv", "raw")) []
        [⟨"c1", some "u"⟩]).map Prod.fst = ["placement/resumesX/cv"] ∧
    downloadAllResumesZip (fun _ => ("placement/resumesX/cv", "raw"))
        [⟨"c1", some "u"⟩] = some ["placement/resumesX/cv"] ∧
    (deleteCompany (fun _ => ("placement/resumesX/cv", "raw"))
        (fun _ _ => DestroyResult.ok)
        ⟨[⟨"c1", "Acme"⟩], [⟨"c1", some "u"⟩]⟩ "c1").2 =
      some ⟨"c1", "Acme", ⟨1, 1, 1⟩⟩ := by
  refine ⟨by decide, by decide, by decide, by decide, by decide⟩

end Placement
